import Mathlib

/-
  Verification development for the contact-book program in `address_book.py`.

  The Python program is shallowly embedded:
  * `PyDate` models `datetime.date` (year/month/day as mathematical integers,
    validity as in CPython's `_check_date_fields`); `toordinal` is CPython's
    `date.toordinal` (proleptic Gregorian ordinal), so that the subtraction
    `(next_birthday - today).days` becomes a difference of ordinals.
  * Validation failures (Python `raise ValueError(...)`) become `Except.error`
    carrying the exception's message string; mutation of a record's phone list
    becomes explicit state passing (the mutated list is returned even when the
    operation subsequently raises, mirroring Python's in-place mutation).
  * `re.match(r'^\d{10}$', s)` is translated with Python's `$` semantics: the
    pattern matches 10 digits at the start of the string followed by either the
    end of the string or a single final newline.  `\d` is modelled as an ASCII
    decimal digit (CPython's `\d` also accepts further Unicode decimal digits;
    all inputs considered in the theorems below are ASCII).
  * `datetime.strptime(value, "%d.%m.%Y")` is translated from CPython's
    `_strptime` regex table: `%d` is `3[01]|[12]\d|0[1-9]|[1-9]`, `%m` is
    `1[0-2]|0[1-9]|[1-9]`, `%Y` is four digits, `.` is literal, and trailing
    unconverted data is an error.  Since every two-character alternative of
    those patterns starts with a digit while the following literal is `'.'`,
    the ordered-alternation (backtracking) semantics coincides with the
    greedy two-digits-else-one-digit parse implemented here.
  * The address book (`UserDict`) becomes an association list in insertion
    order with unique keys; `dict.__setitem__` replaces in place or appends,
    `del` removes the unique matching entry.
-/

set_option maxHeartbeats 1000000

deriving instance DecidableEq for Except

/-- A `datetime.date` value: year, month, day as integers. -/
structure PyDate where
  year : Int
  month : Int
  day : Int
deriving DecidableEq

/-- CPython `_is_leap`: `year % 4 == 0 and (year % 100 != 0 or year % 400 == 0)`
(Python `%` on a positive modulus agrees with Lean's `%` on `Int`, i.e. `Int.emod`). -/
def isLeap (y : Int) : Bool :=
  y % 4 == 0 && (y % 100 != 0 || y % 400 == 0)

/-- CPython `_days_in_month` (table `_DAYS_IN_MONTH` plus the leap-February rule). -/
def daysInMonth (y m : Int) : Int :=
  if m = 2 then (if isLeap y then 29 else 28)
  else if m = 4 ∨ m = 6 ∨ m = 9 ∨ m = 11 then 30
  else 31

/-- CPython `_days_before_year(year) = y*365 + y//4 - y//100 + y//400` with
`y = year - 1` (`//` on a positive divisor agrees with Lean's `/` on `Int`, i.e. `Int.ediv`). -/
def daysBeforeYear (year : Int) : Int :=
  365 * (year - 1) + (year - 1) / 4 - (year - 1) / 100 + (year - 1) / 400

/-- CPython `_days_before_month`: the `_DAYS_BEFORE_MONTH` table, plus one in a
leap year after February. -/
def daysBeforeMonth (y m : Int) : Int :=
  (if m = 1 then 0 else if m = 2 then 31 else if m = 3 then 59 else if m = 4 then 90
   else if m = 5 then 120 else if m = 6 then 151 else if m = 7 then 181 else if m = 8 then 212
   else if m = 9 then 243 else if m = 10 then 273 else if m = 11 then 304 else 334)
  + (if 2 < m ∧ isLeap y = true then 1 else 0)

/-- CPython `date.toordinal`: proleptic Gregorian ordinal.  The difference of
two ordinals is exactly `(d1 - d2).days` for `datetime.date` subtraction. -/
def toordinal (d : PyDate) : Int :=
  daysBeforeYear d.year + daysBeforeMonth d.year d.month + d.day

/-- Python `date.__lt__`: lexicographic comparison of `(year, month, day)`. -/
def pyDateLt (a b : PyDate) : Bool :=
  decide (a.year < b.year ∨ (a.year = b.year ∧
    (a.month < b.month ∨ (a.month = b.month ∧ a.day < b.day))))

/-- The valid `datetime.date` values (CPython `_check_date_fields`). -/
def validDate (d : PyDate) : Prop :=
  1 ≤ d.year ∧ d.year ≤ 9999 ∧ 1 ≤ d.month ∧ d.month ≤ 12 ∧
    1 ≤ d.day ∧ d.day ≤ daysInMonth d.year d.month

instance (d : PyDate) : Decidable (validDate d) := by
  unfold validDate; infer_instance

/-- Python `date.replace(year=y)`: rebuilds the date with the same month/day,
re-running `_check_date_fields`; raises `ValueError` when the fields are out of
range (in particular `"day is out of range for month"` for Feb 29 in a
non-leap year). -/
def replaceYear (b : PyDate) (y : Int) : Except String PyDate :=
  if ¬(1 ≤ y ∧ y ≤ 9999) then .error ("year " ++ toString y ++ " is out of range")
  else if ¬(1 ≤ b.month ∧ b.month ≤ 12) then .error "month must be in 1..12"
  else if ¬(1 ≤ b.day ∧ b.day ≤ daysInMonth y b.month) then .error "day is out of range for month"
  else .ok ⟨y, b.month, b.day⟩

/- ---------------- Phone (address_book.py lines 23-31) ---------------- -/

/-- Consume exactly `n` ASCII decimal digits from the front of the character
list (the `\d{n}` part of the regex), returning the rest. -/
def consumeDigits : Nat → List Char → Option (List Char)
  | 0, l => some l
  | _ + 1, [] => none
  | n + 1, c :: t => if c.isDigit then consumeDigits n t else none

/-- `Phone.validate`: `bool(re.match(r'^\d{10}$', value))`.  Python's `$`
(without `re.MULTILINE`) matches at the end of the string or just before a
newline at the end of the string, so the pattern accepts ten digits optionally
followed by one final newline. -/
def Phone.validate (value : String) : Bool :=
  match consumeDigits 10 value.data with
  | some rest => rest == [] || rest == ['\n']
  | none => false

/-- `Phone.__init__`: validate, raising
`ValueError("Invalid phone number format. It must be 10 digits.")` on failure,
otherwise store the given string as `self.value`. -/
def Phone.make (value : String) : Except String String :=
  if Phone.validate value then .ok value
  else .error "Invalid phone number format. It must be 10 digits."

/- ---------------- Birthday (address_book.py lines 34-39) ---------------- -/

/-- Numeric value of an ASCII digit character. -/
def digitVal (c : Char) : Nat := c.toNat - '0'.toNat

/-- One `%d`/`%m` directive of CPython `_strptime`: the ordered alternation
`3[01]|[12]\d|0[1-9]|[1-9]` (for `%d`, two-digit values `1..31`) resp.
`1[0-2]|0[1-9]|[1-9]` (for `%m`, two-digit values `1..12`).  A two-character
alternative is taken exactly when the first two characters are digits whose
value lies in `1..hi`; otherwise a single `[1-9]` digit is consumed. -/
def parseNum2or1 (hi : Nat) : List Char → Option (Nat × List Char)
  | c1 :: c2 :: rest =>
    if c1.isDigit ∧ c2.isDigit ∧ 1 ≤ 10 * digitVal c1 + digitVal c2 ∧
        10 * digitVal c1 + digitVal c2 ≤ hi then
      some (10 * digitVal c1 + digitVal c2, rest)
    else if c1.isDigit ∧ 1 ≤ digitVal c1 ∧ digitVal c1 ≤ 9 then
      some (digitVal c1, c2 :: rest)
    else none
  | [c1] =>
    if c1.isDigit ∧ 1 ≤ digitVal c1 ∧ digitVal c1 ≤ 9 then some (digitVal c1, []) else none
  | [] => none

/-- The literal `.` of the format string. -/
def expectDot : List Char → Option (List Char)
  | c :: rest => if c = '.' then some rest else none
  | [] => none

/-- The `%Y` directive (`\d\d\d\d`) followed by end of input (CPython raises
`ValueError` on unconverted trailing data, so the year must end the string). -/
def parseYear4 : List Char → Option Nat
  | [a, b, c, d] =>
    if a.isDigit ∧ b.isDigit ∧ c.isDigit ∧ d.isDigit then
      some (1000 * digitVal a + 100 * digitVal b + 10 * digitVal c + digitVal d)
    else none
  | _ => none

/-- `datetime.strptime(value, "%d.%m.%Y")`, regex-matching phase: returns
`(day, month, year)` on success. -/
def strptimeDMY (l : List Char) : Option (Nat × Nat × Nat) :=
  match parseNum2or1 31 l with
  | none => none
  | some (d, r1) =>
    match expectDot r1 with
    | none => none
    | some r2 =>
      match parseNum2or1 12 r2 with
      | none => none
      | some (m, r3) =>
        match expectDot r3 with
        | none => none
        | some r4 =>
          match parseYear4 r4 with
          | none => none
          | some y => some (d, m, y)

/-- `Birthday.__init__`: parse with `strptime`, then the `datetime.date`
constructor validates the calendar fields; every `ValueError` on this path is
caught and re-raised as `ValueError("Invalid date format. Use DD.MM.YYYY")`. -/
def Birthday.make (value : String) : Except String PyDate :=
  match strptimeDMY value.data with
  | some (d, m, y) =>
    if 1 ≤ (y : Int) ∧ (y : Int) ≤ 9999 ∧ 1 ≤ (m : Int) ∧ (m : Int) ≤ 12 ∧
        1 ≤ (d : Int) ∧ (d : Int) ≤ daysInMonth (y : Int) (m : Int) then
      .ok ⟨(y : Int), (m : Int), (d : Int)⟩
    else .error "Invalid date format. Use DD.MM.YYYY"
  | none => .error "Invalid date format. Use DD.MM.YYYY"

/- ---------------- Record (address_book.py lines 42-87) ---------------- -/

/-- A `Record`: validated name, list of phone values (each `Phone.value` is a
string), optional birthday date. -/
structure Record where
  name : String
  phones : List String
  birthday : Option PyDate
deriving DecidableEq

/-- `Record.__init__`: `Name(name)` raises `ValueError("Name is required.")`
on a falsy (empty) name; phones start empty and birthday `None`. -/
def Record.make (name : String) : Except String Record :=
  if name = "" then .error "Name is required." else .ok ⟨name, [], none⟩

/-- `Record.find_phone`: linear scan for the first phone whose `value` equals
the argument. -/
def Record.find_phone (phones : List String) (phone_number : String) : Option String :=
  phones.find? (fun p => decide (p = phone_number))

/-- `Record.add_phone`: construct `Phone(phone_number)` (which validates and
may raise) and append it.  On failure the list is unchanged. -/
def Record.add_phone (phones : List String) (phone_number : String) :
    List String × Except String Unit :=
  match Phone.make phone_number with
  | .ok p => (phones ++ [p], .ok ())
  | .error e => (phones, .error e)

/-- `Record.remove_phone`: find the first matching phone object and
`list.remove` it (removing exactly that first occurrence); raise
`ValueError("Phone number not found.")` if absent. -/
def Record.remove_phone (phones : List String) (phone_number : String) :
    List String × Except String Unit :=
  match Record.find_phone phones phone_number with
  | some _ => (phones.erase phone_number, .ok ())
  | none => (phones, .error "Phone number not found.")

/-- `Record.edit_phone`: if `old` is found, first `remove_phone(old)`, then
`add_phone(new)` — note that the removal has already happened when
`add_phone`'s validation raises. -/
def Record.edit_phone (phones : List String) (old_phone_number new_phone_number : String) :
    List String × Except String Unit :=
  match Record.find_phone phones old_phone_number with
  | some _ =>
    match Record.remove_phone phones old_phone_number with
    | (ph1, .ok _) => Record.add_phone ph1 new_phone_number
    | (ph1, .error e) => (ph1, .error e)
  | none => (phones, .error "Phone number not found.")

/-- `Record.days_to_birthday`: `None` without a birthday; otherwise
`replace(year=today.year)`, compare with `today`, possibly
`replace(year=today.year+1)`, and return the day difference.  The `replace`
calls can raise (Feb 29 in a non-leap year), which propagates. -/
def Record.days_to_birthday (r : Record) (today : PyDate) : Except String (Option Int) :=
  match r.birthday with
  | none => .ok none
  | some b =>
    match replaceYear b today.year with
    | .error e => .error e
    | .ok nb =>
      if pyDateLt nb today then
        match replaceYear b (today.year + 1) with
        | .error e => .error e
        | .ok nb2 => .ok (some (toordinal nb2 - toordinal today))
      else .ok (some (toordinal nb - toordinal today))

/- ---------------- AddressBook (address_book.py lines 90-115) ---------------- -/

/-- The `UserDict` data of an `AddressBook`: entries in insertion order,
keyed by the record's name (keys unique, as in a Python dict). -/
abbrev Book := List (String × Record)

/-- `AddressBook.add_record`: `self.data[record.name.value] = record` — dict
assignment replaces in place when the key exists, else appends. -/
def AddressBook.add_record (book : Book) (record : Record) : Book :=
  if book.any (fun q => decide (q.1 = record.name)) then
    book.map (fun q => if q.1 = record.name then (q.1, record) else q)
  else book ++ [(record.name, record)]

/-- `AddressBook.find`: `self.data.get(name, None)`. -/
def AddressBook.find (book : Book) (name : String) : Option Record :=
  (book.find? (fun q => decide (q.1 = name))).map (fun q => q.2)

/-- `AddressBook.delete`: `del self.data[name]` when present, else
`KeyError("Contact not found.")`. -/
def AddressBook.delete (book : Book) (name : String) : Except String Book :=
  if book.any (fun q => decide (q.1 = name)) then
    .ok (book.eraseP (fun q => decide (q.1 = name)))
  else .error "Contact not found."

/-- Write back a record's mutated phone list (in Python the `Record` object in
the dict is mutated in place, so the entry keeps its position). -/
def setPhones (book : Book) (key : String) (ph : List String) : Book :=
  book.map (fun q => if q.1 = key then (q.1, Record.mk q.2.name ph q.2.birthday) else q)

/-- `AddressBook.get_upcoming_birthdays`: scan the records in insertion order,
include `{name, birthday}` for those whose `days_to_birthday()` is not `None`
and lies in `0..7`; an exception from `days_to_birthday` propagates. -/
def AddressBook.get_upcoming_birthdays : Book → PyDate → Except String (List (String × PyDate))
  | [], _ => .ok []
  | (_, r) :: rest, today =>
    match r.days_to_birthday today with
    | .error e => .error e
    | .ok days =>
      match AddressBook.get_upcoming_birthdays rest today with
      | .error e => .error e
      | .ok tail =>
        match days, r.birthday with
        | some d, some b => if 0 ≤ d ∧ d ≤ 7 then .ok ((r.name, b) :: tail) else .ok tail
        | _, _ => .ok tail

/- ---------------- Command operations (address_book.py lines 129-165) ------- -/

/-- The `input_error` decorator: run the operation; an escaping exception
(`IndexError`, `ValueError`, `KeyError` — every error the operations raise)
is converted to the string `"Error: " ++ message`.  The (possibly mutated)
book is threaded explicitly. -/
def input_error (f : List String → Book → Book × Except String String)
    (args : List String) (book : Book) : Book × String :=
  match f args book with
  | (b, .ok s) => (b, s)
  | (b, .error e) => (b, "Error: " ++ e)

/-- Body of `add_contact` (before the decorator): unpack `name, phone, *_`,
find-or-create the record (inserting it into the book *before* the phone is
validated), then add the phone when one was given (`if phone:` — the empty
string counts as "not given"). -/
def add_contact_body (args : List String) (book : Book) : Book × Except String String :=
  match args with
  | name :: phone :: _ =>
    match AddressBook.find book name with
    | some r =>
      if phone = "" then (book, .ok "Contact updated.")
      else
        match Record.add_phone r.phones phone with
        | (ph, .ok _) => (setPhones book name ph, .ok "Contact updated.")
        | (_, .error e) => (book, .error e)
    | none =>
      if name = "" then (book, .error "Name is required.")
      else
        let book1 := AddressBook.add_record book (Record.mk name [] none)
        if phone = "" then (book1, .ok "Contact added.")
        else
          match Record.add_phone [] phone with
          | (ph, .ok _) => (setPhones book1 name ph, .ok "Contact added.")
          | (_, .error e) => (book1, .error e)
  | _ =>
    (book, .error ("not enough values to unpack (expected at least 2, got "
      ++ toString args.length ++ ")"))

/-- The `add` command: `add_contact = input_error(add_contact_body)`. -/
def add_contact : List String → Book → Book × String :=
  input_error add_contact_body

/-- Body of `change_phone`: unpack `name, old, new, *_`; raise
`ValueError("Contact not found.")` on a missing record, else `edit_phone`
(whose partial mutation is visible in the book even when it raises). -/
def change_phone_body (args : List String) (book : Book) : Book × Except String String :=
  match args with
  | name :: old_phone :: new_phone :: _ =>
    match AddressBook.find book name with
    | none => (book, .error "Contact not found.")
    | some r =>
      match Record.edit_phone r.phones old_phone new_phone with
      | (ph, .ok _) => (setPhones book name ph, .ok "Phone number updated.")
      | (ph, .error e) => (setPhones book name ph, .error e)
  | _ =>
    (book, .error ("not enough values to unpack (expected at least 3, got "
      ++ toString args.length ++ ")"))

/-- The `change` command: `change_phone = input_error(change_phone_body)`. -/
def change_phone : List String → Book → Book × String :=
  input_error change_phone_body

/-- Body of `show_phone`: unpack `name, *_`; raise on a missing record, else
render `"name: p1, p2, ..."` (comma-space separated). -/
def show_phone_body (args : List String) (book : Book) : Book × Except String String :=
  match args with
  | name :: _ =>
    match AddressBook.find book name with
    | none => (book, .error "Contact not found.")
    | some r => (book, .ok (r.name ++ ": " ++ String.intercalate ", " r.phones))
  | [] => (book, .error "not enough values to unpack (expected at least 1, got 0)")

/-- The `phone` command: `show_phone = input_error(show_phone_body)`. -/
def show_phone : List String → Book → Book × String :=
  input_error show_phone_body

/- ---------------- Spec-side definitions ---------------- -/

/-- Modelled from the spec's words for claim C3: "take birthday with current
year; if that date is strictly before today, use next year instead" — the next
occurrence of the birthday's month/day on or after today. -/
def specNextOccurrence (b today : PyDate) : PyDate :=
  if b.month < today.month ∨ (b.month = today.month ∧ b.day < today.day) then
    ⟨today.year + 1, b.month, b.day⟩
  else ⟨today.year, b.month, b.day⟩

/-- Spec-side acceptance set for claim C2 (amended): a string of exactly ten
decimal digits, or ten decimal digits followed by one final newline. -/
def specPhoneAccepts (s : String) : Prop :=
  (s.data.length = 10 ∧ ∀ c ∈ s.data, c.isDigit) ∨
    (s.data.length = 11 ∧ (∀ c ∈ s.data.take 10, c.isDigit) ∧ s.data.drop 10 = ['\n'])

instance (s : String) : Decidable (specPhoneAccepts s) := by
  unfold specPhoneAccepts; infer_instance

lemma one_le_daysInMonth (y m : Int) : 1 ≤ daysInMonth y m := by
  unfold daysInMonth; split_ifs <;> omega

lemma daysInMonth_indep_of_ne_two (y1 y2 m : Int) (hm : m ≠ 2) :
    daysInMonth y1 m = daysInMonth y2 m := by
  unfold daysInMonth; simp [hm]

lemma day_le_daysInMonth_any_year (b : PyDate) (hB : validDate b)
    (hF : ¬(b.month = 2 ∧ b.day = 29)) (y : Int) : b.day ≤ daysInMonth y b.month := by
  obtain ⟨-, -, -, -, -, hd'⟩ := hB
  by_cases hm : b.month = 2
  · have h1 : daysInMonth b.year b.month ≤ 29 := by
      unfold daysInMonth; simp [hm]; split_ifs <;> omega
    have h2 : 28 ≤ daysInMonth y b.month := by
      unfold daysInMonth; simp [hm]; split_ifs <;> omega
    have : b.day ≠ 29 := fun hc => hF ⟨hm, hc⟩
    omega
  · rw [daysInMonth_indep_of_ne_two y b.year b.month hm]; exact hd'


lemma daysBeforeYear_succ (y : Int) :
    daysBeforeYear (y + 1) = daysBeforeYear y + 365 + (if isLeap y = true then 1 else 0) := by
  unfold daysBeforeYear isLeap
  simp only [Bool.and_eq_true, Bool.or_eq_true, beq_iff_eq, bne_iff_ne]
  split_ifs with h <;> omega

lemma dbm_bounds (y m d : Int) (hm : 1 ≤ m) (hm' : m ≤ 12) (hd : 1 ≤ d)
    (hd' : d ≤ daysInMonth y m) :
    1 ≤ daysBeforeMonth y m + d ∧
      daysBeforeMonth y m + d ≤ 365 + (if isLeap y = true then 1 else 0) := by
  cases hL : isLeap y <;>
    interval_cases m <;>
    simp only [daysInMonth, daysBeforeMonth, hL] at hd' ⊢ <;>
    norm_num at hd' ⊢ <;> omega

lemma dbm_add_mono (y m1 d1 m2 d2 : Int) (hm1 : 1 ≤ m1) (hm1' : m1 ≤ 12)
    (hm2 : 1 ≤ m2) (hm2' : m2 ≤ 12) (hd1 : 1 ≤ d1) (hd1' : d1 ≤ daysInMonth y m1)
    (hd2 : 1 ≤ d2) (hlex : m1 < m2 ∨ (m1 = m2 ∧ d1 ≤ d2)) :
    daysBeforeMonth y m1 + d1 ≤ daysBeforeMonth y m2 + d2 := by
  rcases hlex with h | ⟨rfl, h⟩
  · cases hL : isLeap y <;>
      interval_cases m1 <;> interval_cases m2 <;>
      simp only [daysInMonth, daysBeforeMonth, hL] at hd1' ⊢ <;>
      norm_num at hd1' ⊢ <;> omega
  · omega

lemma toordinal_le_same_year (a b : PyDate) (hA : validDate a) (hy : a.year = b.year)
    (hm2 : 1 ≤ b.month) (hm2' : b.month ≤ 12) (hd2 : 1 ≤ b.day)
    (hlex : a.month < b.month ∨ (a.month = b.month ∧ a.day ≤ b.day)) :
    toordinal a ≤ toordinal b := by
  obtain ⟨-, -, hm1, hm1', hd1, hd1'⟩ := hA
  unfold toordinal
  rw [← hy]
  have := dbm_add_mono a.year a.month a.day b.month b.day hm1 hm1' hm2 hm2' hd1 hd1' hd2 hlex
  omega

lemma toordinal_lt_next_year (a b : PyDate) (hA : validDate a)
    (hm2 : 1 ≤ b.month) (hm2' : b.month ≤ 12) (hd2 : 1 ≤ b.day)
    (hd2' : b.day ≤ daysInMonth b.year b.month) (hy : b.year = a.year + 1) :
    toordinal a < toordinal b := by
  obtain ⟨-, -, hm1, hm1', hd1, hd1'⟩ := hA
  unfold toordinal
  have h1 := dbm_bounds a.year a.month a.day hm1 hm1' hd1 hd1'
  have h2 := dbm_bounds b.year b.month b.day hm2 hm2' hd2 hd2'
  rw [hy] at h2 ⊢
  have h3 := daysBeforeYear_succ a.year
  omega

lemma replaceYear_ok (b : PyDate) (y : Int) (h1 : 1 ≤ y) (h2 : y ≤ 9999)
    (hm : 1 ≤ b.month) (hm' : b.month ≤ 12) (hd : 1 ≤ b.day)
    (hd' : b.day ≤ daysInMonth y b.month) :
    replaceYear b y = .ok ⟨y, b.month, b.day⟩ := by
  unfold replaceYear
  split_ifs with c1 c2 c3
  all_goals try rfl
  all_goals tauto

lemma pyDateLt_true_iff (a b : PyDate) :
    pyDateLt a b = true ↔
      (a.year < b.year ∨ (a.year = b.year ∧
        (a.month < b.month ∨ (a.month = b.month ∧ a.day < b.day)))) := by
  simp [pyDateLt]

lemma pyDateLt_false_iff (a b : PyDate) :
    pyDateLt a b = false ↔
      ¬(a.year < b.year ∨ (a.year = b.year ∧
        (a.month < b.month ∨ (a.month = b.month ∧ a.day < b.day)))) := by
  simp [pyDateLt]

/- ---------------- Helper lemmas: phone validation ---------------- -/

lemma consumeDigits_eq (n : Nat) (l : List Char) :
    consumeDigits n l =
      if n ≤ l.length ∧ ∀ c ∈ l.take n, c.isDigit then some (l.drop n) else none := by
  induction n generalizing l with
  | zero => simp [consumeDigits]
  | succ k ih =>
    cases l with
    | nil => simp [consumeDigits]
    | cons c t =>
      by_cases hc : c.isDigit
      · rw [show consumeDigits (k + 1) (c :: t) = consumeDigits k t from by
          simp [consumeDigits, hc]]
        rw [ih]
        by_cases h : k ≤ t.length ∧ ∀ d ∈ t.take k, d.isDigit
        · rw [if_pos h, if_pos ?_]
          · simp
          · constructor
            · simp; omega
            · intro d hd
              rw [List.take_succ_cons] at hd
              rcases List.mem_cons.mp hd with rfl | hd2
              · exact hc
              · exact h.2 d hd2
        · rw [if_neg h, if_neg ?_]
          intro ⟨h1, h2⟩
          simp only [List.length_cons] at h1
          refine h ⟨by omega, fun d hd => h2 d ?_⟩
          rw [List.take_succ_cons]
          exact List.mem_cons_of_mem c hd
      · rw [show consumeDigits (k + 1) (c :: t) = none from by simp [consumeDigits, hc]]
        rw [if_neg ?_]
        intro ⟨h1, h2⟩
        refine hc (h2 c ?_)
        rw [List.take_succ_cons]
        exact List.mem_cons_self c _

lemma phone_validate_iff (s : String) : Phone.validate s = true ↔ specPhoneAccepts s := by
  unfold Phone.validate specPhoneAccepts
  rw [consumeDigits_eq]
  by_cases h : 10 ≤ s.data.length ∧ ∀ c ∈ s.data.take 10, c.isDigit
  · rw [if_pos h]
    have h10 := h.1
    simp only [Bool.or_eq_true, beq_iff_eq]
    constructor
    · intro hv
      rcases hv with hv | hv
      · left
        have h2 := congrArg List.length hv
        rw [List.length_drop] at h2
        simp only [List.length_nil] at h2
        have hl : s.data.length = 10 := by omega
        refine ⟨hl, fun c hc => h.2 c ?_⟩
        rw [List.take_of_length_le (by omega)]
        exact hc
      · right
        have h2 := congrArg List.length hv
        rw [List.length_drop] at h2
        simp only [List.length_singleton] at h2
        have hl : s.data.length = 11 := by omega
        exact ⟨hl, h.2, hv⟩
    · intro hs
      rcases hs with ⟨hl, hdig⟩ | ⟨hl, -, hdrop⟩
      · left
        rw [List.drop_eq_nil_iff]; omega
      · right
        exact hdrop
  · rw [if_neg h]
    constructor
    · intro hv; exact absurd hv (by simp)
    · intro hs
      exfalso
      apply h
      rcases hs with ⟨hl, hdig⟩ | ⟨hl, hdig, -⟩
      · exact ⟨by omega, fun c hc => hdig c (List.take_subset 10 s.data hc)⟩
      · exact ⟨by omega, hdig⟩

lemma phone_make_error (s : String) (h : ¬ specPhoneAccepts s) :
    Phone.make s = .error "Invalid phone number format. It must be 10 digits." := by
  unfold Phone.make
  rw [if_neg]
  intro hv
  exact h ((phone_validate_iff s).mp hv)

/- ---------------- Helper lemmas: birthday parsing ---------------- -/

lemma find_phone_of_mem (phones : List String) (p : String) (h : p ∈ phones) :
    Record.find_phone phones p = some p := by
  unfold Record.find_phone
  induction phones with
  | nil => simp at h
  | cons a t ih =>
    by_cases ha : a = p
    · subst ha; simp [List.find?]
    · rcases List.mem_cons.mp h with rfl | ht
      · exact absurd rfl ha
      · rw [List.find?_cons_of_neg _ (by simp [ha])]
        exact ih ht

lemma remove_phone_of_mem (phones : List String) (p : String) (h : p ∈ phones) :
    Record.remove_phone phones p = (phones.erase p, .ok ()) := by
  unfold Record.remove_phone
  rw [find_phone_of_mem phones p h]

lemma add_phone_invalid (phones : List String) (p : String) (h : Phone.validate p = false) :
    Record.add_phone phones p =
      (phones, .error "Invalid phone number format. It must be 10 digits.") := by
  simp [Record.add_phone, Phone.make, h]

lemma add_phone_valid (phones : List String) (p : String) (h : Phone.validate p = true) :
    Record.add_phone phones p = (phones ++ [p], .ok ()) := by
  simp [Record.add_phone, Phone.make, h]

lemma edit_phone_invalid (phones : List String) (oldp newp : String)
    (hmem : oldp ∈ phones) (hval : Phone.validate newp = false) :
    Record.edit_phone phones oldp newp =
      (phones.erase oldp, .error "Invalid phone number format. It must be 10 digits.") := by
  unfold Record.edit_phone
  rw [find_phone_of_mem phones oldp hmem]
  dsimp only
  rw [remove_phone_of_mem phones oldp hmem]
  dsimp only
  exact add_phone_invalid _ _ hval

lemma edit_phone_valid (phones : List String) (oldp newp : String)
    (hmem : oldp ∈ phones) (hval : Phone.validate newp = true) :
    Record.edit_phone phones oldp newp = (phones.erase oldp ++ [newp], .ok ()) := by
  unfold Record.edit_phone
  rw [find_phone_of_mem phones oldp hmem]
  dsimp only
  rw [remove_phone_of_mem phones oldp hmem]
  dsimp only
  exact add_phone_valid _ _ hval

lemma erase_first_occurrence (l1 l2 : List String) (p : String) (h : p ∉ l1) :
    (l1 ++ p :: l2).erase p = l1 ++ l2 := by
  rw [List.erase_append_right _ h, List.erase_cons_head]

lemma find_eq_none_iff (book : Book) (name : String) :
    AddressBook.find book name = none ↔ ∀ q ∈ book, q.1 ≠ name := by
  unfold AddressBook.find
  rw [Option.map_eq_none', List.find?_eq_none]
  simp

lemma add_record_append (book : Book) (r : Record) (h : ∀ q ∈ book, q.1 ≠ r.name) :
    AddressBook.add_record book r = book ++ [(r.name, r)] := by
  unfold AddressBook.add_record
  rw [if_neg]
  simp only [List.any_eq_true, decide_eq_true_eq, not_exists]
  intro q
  rw [not_and]
  exact h q

lemma setPhones_no_key (book : Book) (name : String) (ph : List String)
    (h : ∀ q ∈ book, q.1 ≠ name) : setPhones book name ph = book := by
  unfold setPhones
  conv_rhs => rw [← List.map_id book]
  apply List.map_congr_left
  intro q hq
  rw [if_neg (h q hq)]
  rfl

lemma setPhones_append (b1 b2 : Book) (name : String) (ph : List String) :
    setPhones (b1 ++ b2) name ph = setPhones b1 name ph ++ setPhones b2 name ph := by
  unfold setPhones
  exact List.map_append _ _ _

lemma setPhones_singleton (name : String) (r : Record) (ph : List String) :
    setPhones [(name, r)] name ph = [(name, Record.mk r.name ph r.birthday)] := by
  simp [setPhones]

lemma any_key_iff (book : Book) (name : String) :
    book.any (fun q => decide (q.1 = name)) = true ↔ name ∈ book.map Prod.fst := by
  simp [List.any_eq_true, List.mem_map]

lemma book_key_decomp (book : Book) (name : String) (h : name ∈ book.map Prod.fst) :
    ∃ l1 r l2, book = l1 ++ (name, r) :: l2 ∧ (∀ q ∈ l1, q.1 ≠ name) ∧
      book.eraseP (fun q => decide (q.1 = name)) = l1 ++ l2 := by
  induction book with
  | nil => simp at h
  | cons a t ih =>
    by_cases ha : a.1 = name
    · refine ⟨[], a.2, t, ?_, by simp, ?_⟩
      · obtain ⟨k, v⟩ := a
        dsimp only at ha
        rw [ha]
        rfl
      · rw [List.eraseP_cons_of_pos (by simp [ha])]
        rfl
    · have h2 : name ∈ t.map Prod.fst := by
        simp only [List.map_cons, List.mem_cons] at h
        rcases h with h | h
        · exact absurd h.symm ha
        · exact h
      obtain ⟨l1, r, l2, he, hl1, her⟩ := ih h2
      refine ⟨a :: l1, r, l2, by rw [he]; rfl, ?_, ?_⟩
      · intro q hq
        rcases List.mem_cons.mp hq with rfl | hq2
        · exact ha
        · exact hl1 q hq2
      · rw [List.eraseP_cons_of_neg (by simp [ha]), her]
        rfl

/- ---------------- Helper lemmas: birthday parsing, completeness ----------- -/

/-- C1 counterexample: `editPhone(old, new)` is *not* atomic.  For the record
whose phone list is `["1234567890"]`, editing `"1234567890"` to the invalid
number `"123"` fails with the validation error, yet the resulting phone list
is empty: `old` has been removed, contradicting the claim that `old` is still
present afterward. -/
theorem C1_edit_phone_atomicity_counterexample :
    Record.edit_phone ["1234567890"] "1234567890" "123" =
      ([], Except.error "Invalid phone number format. It must be 10 digits.") ∧
    "1234567890" ∉ ([] : List String) := by
  constructor
  · decide
  · simp

/-- C1 amended: when `old` is present and `new` fails validation,
`edit_phone` raises the validation error, but only after the first occurrence
of `old` has been removed from the phone list (the removal is not rolled
back); `old` survives only as a later duplicate, i.e. exactly when it occurred
more than once. -/
theorem C1_edit_phone_partial_removal (phones : List String) (oldp newp : String)
    (hmem : oldp ∈ phones) (hval : Phone.validate newp = false) :
    Record.edit_phone phones oldp newp =
      (phones.erase oldp, .error "Invalid phone number format. It must be 10 digits.") ∧
    (phones.count oldp = 1 → oldp ∉ phones.erase oldp) := by
  refine ⟨edit_phone_invalid phones oldp newp hmem hval, ?_⟩
  intro hcount hmem2
  have hc := List.count_erase_self oldp phones
  have hpos : 0 < (phones.erase oldp).count oldp := List.count_pos_iff.mpr hmem2
  omega

/-- C1 witness: instance of the amended claim at a concrete record. -/
theorem C1_edit_phone_partial_removal_witness :
    Record.edit_phone ["1234567890", "5555555555"] "1234567890" "123" =
      (["5555555555"], .error "Invalid phone number format. It must be 10 digits.") := by
  have h := C1_edit_phone_partial_removal ["1234567890", "5555555555"] "1234567890" "123"
    (by decide) (by decide)
  exact h.1.trans (by decide)

/-- C10: with a duplicated phone value, `remove_phone` removes exactly the
first occurrence (insertion order), and `edit_phone` with a valid new number
removes the first occurrence of `old` and appends `new` at the end of the
list rather than replacing in place. -/
theorem C10_duplicate_phone_handling (l1 l2 : List String) (p newp : String)
    (hnot : p ∉ l1) (hval : Phone.validate newp = true) :
    Record.remove_phone (l1 ++ p :: l2) p = (l1 ++ l2, .ok ()) ∧
    Record.edit_phone (l1 ++ p :: l2) p newp = (l1 ++ l2 ++ [newp], .ok ()) := by
  have hmem : p ∈ l1 ++ p :: l2 := by simp
  constructor
  · rw [remove_phone_of_mem _ _ hmem, erase_first_occurrence l1 l2 p hnot]
  · rw [edit_phone_valid _ _ _ hmem hval, erase_first_occurrence l1 l2 p hnot]

/-- C10 witness: a list containing the same number twice keeps the second
occurrence after `remove_phone`, and `edit_phone` appends the new number. -/
theorem C10_duplicate_phone_handling_witness :
    Record.remove_phone ["1234567890", "1234567890"] "1234567890" =
      (["1234567890"], .ok ()) ∧
    Record.edit_phone ["1234567890", "1234567890"] "1234567890" "0987654321" =
      (["1234567890", "0987654321"], .ok ()) := by
  have h := C10_duplicate_phone_handling [] ["1234567890"] "1234567890" "0987654321"
    (by simp) (by decide)
  exact ⟨h.1.trans (by decide), h.2.trans (by decide)⟩

/-- C2 counterexample: the string `"1234567890\n"` has length 11 (so the claim
says construction must fail), yet `Phone` construction succeeds and stores it:
Python's `$` also matches just before a trailing newline. -/
theorem C2_phone_validation_counterexample :
    ("1234567890\n").length = 11 ∧
    Phone.make "1234567890\n" = .ok "1234567890\n" := by
  constructor
  · decide
  · decide

/-- C2 amended: over ASCII strings, `Phone` construction succeeds exactly on
strings of ten decimal digits and on strings of ten decimal digits followed by
one final newline (the stored value is the full given string, newline
included); every other string fails with the validation error. -/
theorem C2_phone_validation_amended (s : String) :
    (Phone.make s = .ok s ↔ specPhoneAccepts s) ∧
    (¬ specPhoneAccepts s →
      Phone.make s = .error "Invalid phone number format. It must be 10 digits.") := by
  constructor
  · constructor
    · intro h
      apply (phone_validate_iff s).mp
      by_contra hv
      have : Phone.make s = .error "Invalid phone number format. It must be 10 digits." := by
        unfold Phone.make
        rw [if_neg]
        simp [hv]
      rw [h] at this
      exact Except.noConfusion this
    · intro h
      unfold Phone.make
      rw [if_pos ((phone_validate_iff s).mpr h)]
  · exact phone_make_error s

/-- C2 witness: the amended claim applied to the ten-digit string
`"1234567890"` (accepted) and to `"123"` (rejected). -/
theorem C2_phone_validation_amended_witness :
    Phone.make "1234567890" = .ok "1234567890" ∧
    Phone.make "123" = .error "Invalid phone number format. It must be 10 digits." := by
  constructor
  · exact (C2_phone_validation_amended "1234567890").1.mpr (by decide)
  · exact (C2_phone_validation_amended "123").2 (by decide)

/-- C3 amended: a record with no birthday yields `none`.  A record with a
birthday `b` other than February 29 (and `today.year + 1` still a valid year)
yields `ok (some n)` where `n` is the ordinal distance from `today` to the
next occurrence of `b`'s month/day on or after today (current year, or next
year when the date already passed); `n` is non-negative, the target date
carries `b`'s month/day, is not before today, and is the earliest such date
on or after today; a birthday falling today yields `0`.  For a February 29
birthday the original claim fails: `date.replace` raises
`"day is out of range for month"` (see the counterexample). -/
theorem C3_days_to_birthday_amended (r : Record) (b today : PyDate)
    (hb : r.birthday = some b)
    (hT : validDate today) (hB : validDate b) (hY : today.year + 1 ≤ 9999)
    (hF : ¬(b.month = 2 ∧ b.day = 29)) :
    (∀ r2 : Record, r2.birthday = none → Record.days_to_birthday r2 today = .ok none) ∧
    Record.days_to_birthday r today =
      .ok (some (toordinal (specNextOccurrence b today) - toordinal today)) ∧
    0 ≤ toordinal (specNextOccurrence b today) - toordinal today ∧
    (specNextOccurrence b today).month = b.month ∧
    (specNextOccurrence b today).day = b.day ∧
    pyDateLt (specNextOccurrence b today) today = false ∧
    (∀ e : PyDate, e.month = b.month → e.day = b.day → pyDateLt e today = false →
        pyDateLt e (specNextOccurrence b today) = false) ∧
    ((b.month = today.month ∧ b.day = today.day) →
        toordinal (specNextOccurrence b today) - toordinal today = 0) := by
  refine ⟨fun r2 h2 => by simp [Record.days_to_birthday, h2], ?_⟩
  have hTy : 1 ≤ today.year ∧ today.year ≤ 9999 := ⟨hT.1, hT.2.1⟩
  have hBm : 1 ≤ b.month ∧ b.month ≤ 12 := ⟨hB.2.2.1, hB.2.2.2.1⟩
  have hBd : 1 ≤ b.day := hB.2.2.2.2.1
  have hdim1 : b.day ≤ daysInMonth today.year b.month :=
    day_le_daysInMonth_any_year b hB hF today.year
  have hdim2 : b.day ≤ daysInMonth (today.year + 1) b.month :=
    day_le_daysInMonth_any_year b hB hF (today.year + 1)
  have h1 : replaceYear b today.year = .ok ⟨today.year, b.month, b.day⟩ :=
    replaceYear_ok b today.year hTy.1 hTy.2 hBm.1 hBm.2 hBd hdim1
  have h2 : replaceYear b (today.year + 1) = .ok ⟨today.year + 1, b.month, b.day⟩ :=
    replaceYear_ok b (today.year + 1) (by omega) hY hBm.1 hBm.2 hBd hdim2
  by_cases hlt : b.month < today.month ∨ (b.month = today.month ∧ b.day < today.day)
  · -- the birthday's month/day is strictly before today's: next year is used
    have hnx : specNextOccurrence b today = ⟨today.year + 1, b.month, b.day⟩ := by
      unfold specNextOccurrence; rw [if_pos hlt]
    have hplt : pyDateLt ⟨today.year, b.month, b.day⟩ today = true := by
      rw [pyDateLt_true_iff]; right; exact ⟨rfl, hlt⟩
    have hvnext : validDate ⟨today.year + 1, b.month, b.day⟩ := by
      unfold validDate
      dsimp only
      exact ⟨by omega, hY, hBm.1, hBm.2, hBd, hdim2⟩
    refine ⟨?_, ?_, by rw [hnx], by rw [hnx], ?_, ?_, ?_⟩
    · simp [Record.days_to_birthday, hb, h1, hplt, h2, hnx]
    · rw [hnx]
      have := toordinal_lt_next_year today ⟨today.year + 1, b.month, b.day⟩ hT
        hBm.1 hBm.2 hBd hdim2 rfl
      omega
    · rw [hnx, pyDateLt_false_iff]
      dsimp only
      intro hc
      rcases hc with hc | ⟨hc, -⟩
      · omega
      · omega
    · intro e he1 he2 he3
      rw [hnx, pyDateLt_false_iff]
      dsimp only
      rw [pyDateLt_false_iff] at he3
      intro hc
      rcases hc with hc | ⟨hc, hc2⟩
      · -- e.year < today.year + 1, so e.year ≤ today.year
        apply he3
        rcases hlt with hl | ⟨hl1, hl2⟩
        · by_cases hy : e.year = today.year
          · right; exact ⟨hy, Or.inl (he1 ▸ hl)⟩
          · left; omega
        · by_cases hy : e.year = today.year
          · right; exact ⟨hy, Or.inr ⟨he1 ▸ hl1, he2 ▸ hl2⟩⟩
          · left; omega
      · rcases hc2 with hc2 | ⟨-, hc3⟩
        · exact absurd (he1 ▸ hc2) (lt_irrefl _)
        · exact absurd (he2 ▸ hc3) (lt_irrefl _)
    · intro ⟨hm, hd⟩
      exact absurd hlt (by omega)
  · -- the birthday's month/day is on or after today's: current year is used
    have hnx : specNextOccurrence b today = ⟨today.year, b.month, b.day⟩ := by
      unfold specNextOccurrence; rw [if_neg hlt]
    have hplt : pyDateLt ⟨today.year, b.month, b.day⟩ today = false := by
      rw [pyDateLt_false_iff]
      dsimp only
      intro hc
      rcases hc with hc | ⟨-, hc2⟩
      · omega
      · exact hlt hc2
    refine ⟨?_, ?_, by rw [hnx], by rw [hnx], ?_, ?_, ?_⟩
    · simp [Record.days_to_birthday, hb, h1, hplt, hnx]
    · rw [hnx]
      have := toordinal_le_same_year today ⟨today.year, b.month, b.day⟩ hT rfl
        hBm.1 hBm.2 hBd (by push_neg at hlt; dsimp only; omega)
      omega
    · rw [hnx]; exact hplt
    · intro e he1 he2 he3
      rw [hnx, pyDateLt_false_iff]
      dsimp only
      rw [pyDateLt_false_iff] at he3
      intro hc
      rcases hc with hc | ⟨hc, hc2⟩
      · exact he3 (Or.inl hc)
      · rcases hc2 with hc2 | ⟨-, hc3⟩
        · exact absurd (he1 ▸ hc2) (lt_irrefl _)
        · exact absurd (he2 ▸ hc3) (lt_irrefl _)
    · intro ⟨hm, hd⟩
      rw [hnx]
      unfold toordinal
      simp only [hm, hd]
      omega

/-- C3 counterexample: the birthday February 29, 2000 is constructible
(`"29.02.2000"` parses), but `days_to_birthday` on January 1, 2023 does not
return a day count: `replace(year=2023)` raises
`ValueError("day is out of range for month")`, contradicting the claim that
every record with a birthday yields a non-negative day count. -/
theorem C3_days_to_birthday_counterexample :
    Birthday.make "29.02.2000" = .ok ⟨2000, 2, 29⟩ ∧
    Record.days_to_birthday ⟨"Ann", [], some ⟨2000, 2, 29⟩⟩ ⟨2023, 1, 1⟩ =
      .error "day is out of range for month" := by
  constructor
  · decide
  · decide

/-- C3 witness: a birthday tomorrow (May 11 vs today May 10, 2024) yields 1;
the no-birthday record yields `none`. -/
theorem C3_days_to_birthday_amended_witness :
    Record.days_to_birthday ⟨"A", [], some ⟨1990, 5, 11⟩⟩ ⟨2024, 5, 10⟩ = .ok (some 1) ∧
    Record.days_to_birthday ⟨"B", [], none⟩ ⟨2024, 5, 10⟩ = .ok none := by
  have h := C3_days_to_birthday_amended ⟨"A", [], some ⟨1990, 5, 11⟩⟩ ⟨1990, 5, 11⟩
    ⟨2024, 5, 10⟩ rfl (by decide) (by decide) (by decide) (by decide)
  constructor
  · rw [(by decide : toordinal (specNextOccurrence ⟨1990, 5, 11⟩ ⟨2024, 5, 10⟩) -
      toordinal ⟨2024, 5, 10⟩ = (1 : Int))] at h
    exact h.2.1
  · exact h.1 ⟨"B", [], none⟩ rfl

/-- C4: whenever every record's `days_to_birthday` computation succeeds,
`get_upcoming_birthdays` returns exactly the `{name, birthday}` pairs of the
records with a birthday whose day count lies in `0..7` (both ends inclusive),
in the scan (insertion) order of the book — expressed as a `filterMap` over
the book, which preserves order and includes precisely those records. -/
theorem C4_upcoming_birthdays_window (book : Book) (today : PyDate)
    (h : ∀ q ∈ book, ∃ v, Record.days_to_birthday q.2 today = .ok v) :
    AddressBook.get_upcoming_birthdays book today =
      .ok (book.filterMap (fun q =>
        match Record.days_to_birthday q.2 today, q.2.birthday with
        | .ok (some d), some b => if 0 ≤ d ∧ d ≤ 7 then some (q.2.name, b) else none
        | _, _ => none)) := by
  induction book with
  | nil => rfl
  | cons a t ih =>
    obtain ⟨v, hv⟩ := h a (by simp)
    have ht := ih (fun q hq => h q (by simp [hq]))
    obtain ⟨k, r⟩ := a
    simp only [AddressBook.get_upcoming_birthdays, List.filterMap_cons, hv, ht]
    cases v with
    | none => cases hbd : r.birthday <;> simp
    | some d =>
      cases hbd : r.birthday with
      | none => simp
      | some b =>
        by_cases hd : 0 ≤ d ∧ d ≤ 7
        · simp [hd]
        · simp [hd]

/-- C4 witness: with today = Jan 10, 2024, a birthday today (0 days) and one
exactly 7 days out are included, one 8 days out and a record without a
birthday are excluded, and the result keeps insertion order. -/
theorem C4_upcoming_birthdays_window_witness :
    AddressBook.get_upcoming_birthdays
      [("A", ⟨"A", [], some ⟨1990, 1, 10⟩⟩), ("B", ⟨"B", [], some ⟨1990, 1, 17⟩⟩),
       ("C", ⟨"C", [], some ⟨1990, 1, 18⟩⟩), ("D", ⟨"D", [], none⟩)] ⟨2024, 1, 10⟩ =
      .ok [("A", ⟨1990, 1, 10⟩), ("B", ⟨1990, 1, 17⟩)] := by
  have h := C4_upcoming_birthdays_window
    [("A", ⟨"A", [], some ⟨1990, 1, 10⟩⟩), ("B", ⟨"B", [], some ⟨1990, 1, 17⟩⟩),
     ("C", ⟨"C", [], some ⟨1990, 1, 18⟩⟩), ("D", ⟨"D", [], none⟩)] ⟨2024, 1, 10⟩
    (by
      intro q hq
      simp only [List.mem_cons, List.not_mem_nil, or_false] at hq
      rcases hq with rfl | rfl | rfl | rfl <;> exact ⟨_, rfl⟩)
  exact h.trans (by decide)

/-- C8: `delete(name)` fails with `KeyError("Contact not found.")` exactly
when `name` is absent from the book's keys; when present, the book decomposes
as `l1 ++ (name, r) :: l2` with no earlier occurrence of the key, and
`delete` returns `l1 ++ l2`: that record is removed and every other record
(and their order) is untouched. -/
theorem C8_delete_semantics (book : Book) (name : String) :
    (AddressBook.delete book name = .error "Contact not found." ↔
      name ∉ book.map Prod.fst) ∧
    (name ∈ book.map Prod.fst →
      ∃ l1 r l2, book = l1 ++ (name, r) :: l2 ∧ (∀ q ∈ l1, q.1 ≠ name) ∧
        AddressBook.delete book name = .ok (l1 ++ l2)) := by
  constructor
  · constructor
    · intro h hmem
      unfold AddressBook.delete at h
      rw [if_pos ((any_key_iff book name).mpr hmem)] at h
      exact Except.noConfusion h
    · intro hmem
      unfold AddressBook.delete
      rw [if_neg]
      intro hc
      exact hmem ((any_key_iff book name).mp hc)
  · intro hmem
    obtain ⟨l1, r, l2, he, hl1, her⟩ := book_key_decomp book name hmem
    refine ⟨l1, r, l2, he, hl1, ?_⟩
    unfold AddressBook.delete
    rw [if_pos ((any_key_iff book name).mpr hmem), her]

/-- C8 witness: deleting a present key succeeds; deleting an absent key
fails with the `KeyError` message. -/
theorem C8_delete_semantics_witness :
    (∃ b2, AddressBook.delete [("A", ⟨"A", [], none⟩), ("B", ⟨"B", [], none⟩)] "A" =
      .ok b2) ∧
    AddressBook.delete [("A", ⟨"A", [], none⟩)] "C" = .error "Contact not found." := by
  constructor
  · obtain ⟨l1, r, l2, -, -, hdel⟩ :=
      (C8_delete_semantics [("A", ⟨"A", [], none⟩), ("B", ⟨"B", [], none⟩)] "A").2
        (by decide)
    exact ⟨l1 ++ l2, hdel⟩
  · exact (C8_delete_semantics [("A", ⟨"A", [], none⟩)] "C").1.mpr (by decide)

/- ---------------- Helper lemmas: command bodies ---------------- -/

lemma add_contact_body_absent (name phone : String) (rest : List String) (book : Book)
    (hname : name ≠ "") (hphone : phone ≠ "") (hval : Phone.validate phone = true)
    (hfind : AddressBook.find book name = none) (hnokey : ∀ q ∈ book, q.1 ≠ name) :
    add_contact_body (name :: phone :: rest) book =
      (book ++ [(name, Record.mk name [phone] none)], .ok "Contact added.") := by
  unfold add_contact_body
  dsimp only
  rw [hfind]
  dsimp only
  rw [if_neg hname, if_neg hphone, add_phone_valid [] phone hval]
  dsimp only
  rw [add_record_append book ⟨name, [], none⟩ hnokey]
  rw [setPhones_append, setPhones_no_key book name _ hnokey, setPhones_singleton]
  rfl

lemma add_contact_body_present (name phone : String) (rest : List String) (book : Book)
    (r : Record) (hphone : phone ≠ "") (hval : Phone.validate phone = true)
    (hfind : AddressBook.find book name = some r) :
    add_contact_body (name :: phone :: rest) book =
      (setPhones book name (r.phones ++ [phone]), .ok "Contact updated.") := by
  unfold add_contact_body
  dsimp only
  rw [hfind]
  dsimp only
  rw [if_neg hphone, add_phone_valid r.phones phone hval]

lemma add_contact_body_absent_invalid (name phone : String) (rest : List String)
    (book : Book) (hname : name ≠ "") (hphone : phone ≠ "")
    (hval : Phone.validate phone = false) (hfind : AddressBook.find book name = none)
    (hnokey : ∀ q ∈ book, q.1 ≠ name) :
    add_contact_body (name :: phone :: rest) book =
      (book ++ [(name, Record.mk name [] none)],
        .error "Invalid phone number format. It must be 10 digits.") := by
  unfold add_contact_body
  dsimp only
  rw [hfind]
  dsimp only
  rw [if_neg hname, if_neg hphone, add_phone_invalid [] phone hval]
  dsimp only
  rw [add_record_append book ⟨name, [], none⟩ hnokey]

/-- C6: the `add` command answers "Contact added." when the name is absent
(inserting a record carrying the validated phone) and "Contact updated." when
present (appending the phone to that record's list); the spec's scenario
`add("Alice","1234567890")`, `add("Alice","0987654321")`, `phone("Alice")`
produces exactly the three expected outputs, with the phones comma-separated. -/
theorem C6_add_command_messages (name phone : String) (rest : List String) (book : Book)
    (hname : name ≠ "") (hval : Phone.validate phone = true) :
    (AddressBook.find book name = none →
      add_contact (name :: phone :: rest) book =
        (book ++ [(name, Record.mk name [phone] none)], "Contact added.")) ∧
    (∀ r, AddressBook.find book name = some r →
      add_contact (name :: phone :: rest) book =
        (setPhones book name (r.phones ++ [phone]), "Contact updated.")) ∧
    add_contact ["Alice", "1234567890"] [] =
      ([("Alice", ⟨"Alice", ["1234567890"], none⟩)], "Contact added.") ∧
    add_contact ["Alice", "0987654321"] [("Alice", ⟨"Alice", ["1234567890"], none⟩)] =
      ([("Alice", ⟨"Alice", ["1234567890", "0987654321"], none⟩)], "Contact updated.") ∧
    show_phone ["Alice"] [("Alice", ⟨"Alice", ["1234567890", "0987654321"], none⟩)] =
      ([("Alice", ⟨"Alice", ["1234567890", "0987654321"], none⟩)],
        "Alice: 1234567890, 0987654321") := by
  have hphone : phone ≠ "" := by
    intro hc
    rw [hc] at hval
    exact absurd hval (by decide)
  refine ⟨?_, ?_, by decide, by decide, by decide⟩
  · intro hfind
    unfold add_contact input_error
    rw [add_contact_body_absent name phone rest book hname hphone hval hfind
      ((find_eq_none_iff book name).mp hfind)]
  · intro r hfind
    unfold add_contact input_error
    rw [add_contact_body_present name phone rest book r hphone hval hfind]

/-- C6 witness: the general branches of the claim applied to a fresh book. -/
theorem C6_add_command_messages_witness :
    add_contact ["Carol", "5551234567"] [] =
      ([("Carol", ⟨"Carol", ["5551234567"], none⟩)], "Contact added.") ∧
    add_contact ["Carol", "5557654321"] [("Carol", ⟨"Carol", ["5551234567"], none⟩)] =
      ([("Carol", ⟨"Carol", ["5551234567", "5557654321"], none⟩)], "Contact updated.") := by
  constructor
  · have h := C6_add_command_messages "Carol" "5551234567" [] [] (by decide) (by decide)
    exact (h.1 rfl).trans (by decide)
  · have h := C6_add_command_messages "Carol" "5557654321" []
      [("Carol", ⟨"Carol", ["5551234567"], none⟩)] (by decide) (by decide)
    exact (h.2.1 ⟨"Carol", ["5551234567"], none⟩ rfl).trans (by decide)

/-- C7: the `input_error` boundary converts every escaping exception into the
string `"Error: " ++ message` (and passes successful results through
unchanged, with the same resulting book either way); in particular `change`
on a non-existent contact answers exactly `"Error: Contact not found."` and
leaves the book unchanged. -/
theorem C7_errors_caught_at_boundary :
    (∀ (f : List String → Book → Book × Except String String) (args : List String)
        (book : Book),
      (∃ v, f args book = ((input_error f args book).1, .ok v) ∧
        (input_error f args book).2 = v) ∨
      (∃ e, f args book = ((input_error f args book).1, .error e) ∧
        (input_error f args book).2 = "Error: " ++ e)) ∧
    (∀ (name oldp newp : String) (rest : List String) (book : Book),
      AddressBook.find book name = none →
      change_phone (name :: oldp :: newp :: rest) book =
        (book, "Error: Contact not found.")) := by
  constructor
  · intro f args book
    rcases hf : f args book with ⟨b, r⟩
    cases r with
    | ok v => exact Or.inl ⟨v, by simp [input_error, hf], by simp [input_error, hf]⟩
    | error e => exact Or.inr ⟨e, by simp [input_error, hf], by simp [input_error, hf]⟩
  · intro name oldp newp rest book hfind
    unfold change_phone input_error change_phone_body
    dsimp only
    rw [hfind]
    rfl

/-- C7 witness: the spec's scenario — `change("Bob", "1111111111",
"2222222222")` on a book without Bob. -/
theorem C7_errors_caught_at_boundary_witness :
    change_phone ["Bob", "1111111111", "2222222222"] [] =
      ([], "Error: Contact not found.") :=
  (C7_errors_caught_at_boundary).2 "Bob" "1111111111" "2222222222" [] [] rfl

/-- C9 counterexample: the empty string is an invalid phone (validation
fails), yet `add("Bob", "")` on an empty book does not return an error
string: Python's `if phone:` treats `""` as "no phone given", so the command
answers "Contact added." (while still inserting the record). -/
theorem C9_add_counterexample :
    Phone.validate "" = false ∧
    add_contact ["Bob", ""] [] = ([("Bob", ⟨"Bob", [], none⟩)], "Contact added.") := by
  constructor
  · decide
  · decide

/-- C9 amended: for a *non-empty* invalid phone string and an absent name,
`add` answers the error string, yet the fresh record (with an empty phone
list) has already been inserted at the end of the book — the insertion is not
rolled back; for the empty phone string the insertion also happens but the
command reports success. -/
theorem C9_add_not_atomic_amended (name phone : String) (rest : List String) (book : Book)
    (hname : name ≠ "") (hfind : AddressBook.find book name = none)
    (hphone : phone ≠ "") (hval : Phone.validate phone = false) :
    add_contact (name :: phone :: rest) book =
      (book ++ [(name, Record.mk name [] none)],
        "Error: Invalid phone number format. It must be 10 digits.") := by
  unfold add_contact input_error
  rw [add_contact_body_absent_invalid name phone rest book hname hphone hval hfind
    ((find_eq_none_iff book name).mp hfind)]
  rfl

/-- C9 witness: `add("Bob", "123")` on the empty book inserts Bob with no
phones and reports the validation error. -/
theorem C9_add_not_atomic_amended_witness :
    add_contact ["Bob", "123"] [] =
      ([("Bob", ⟨"Bob", [], none⟩)],
        "Error: Invalid phone number format. It must be 10 digits.") := by
  have h := C9_add_not_atomic_amended "Bob" "123" [] [] (by decide) rfl (by decide) (by decide)
  exact h.trans (by decide)
